import Mathlib

/-!
Verification development for the fastapi-starter procurement platform.

The repository source holds the persistence schema (ORM entities in
src/src/models) and a thin user CRUD router (src/src/user/routes).  The
workflow engine (job and negotiation state machines, quota tracker, webhook
deduplicator, purchase-order generator) is specified in spec.md but not
implemented in the source, so those operations are modelled from the spec,
while entity fields and defaults mirror the ORM columns.  Timestamps are
modelled as natural numbers, ids as natural numbers, and monetary amounts
as rationals.
-/

namespace Procurement

/-- Status of vendor negotiations, mirroring `NegotiationStatus` in
src/src/models/enums.py. -/
inductive NegotiationStatus where
  | draft
  | pending_approval
  | sent
  | vendor_replied
  | accepted
  | rejected
  | expired
deriving DecidableEq, Repr

/-- The names of the negotiation state-machine operations, used as the
`requested_transition` payload of `InvalidTransition`. -/
inductive NegotiationOp where
  | request_approval
  | approve
  | record_vendor_reply
  | accept
  | reject
deriving DecidableEq, Repr

/-- Errors raised by the negotiation state machine (spec §7 taxonomy). -/
inductive NegotiationError where
  | invalidTransition (current : NegotiationStatus) (requested : NegotiationOp)
deriving DecidableEq, Repr

/-- The `Negotiation` entity, mirroring the columns of
src/src/models/negotiation.py that the workflow touches.  Nullable columns
become `Option`; datetimes are natural-number instants; thread ids are
modelled as numbers. -/
structure Negotiation where
  status : NegotiationStatus
  original_price : Rat
  target_price : Rat
  current_offer_price : Option Rat
  final_price : Option Rat
  quantity : Nat
  email_thread_id : Option Nat
  email_sent_count : Nat
  last_vendor_response_at : Option Nat
  auto_follow_up_enabled : Bool
  next_follow_up_at : Option Nat
  max_follow_ups : Nat
  requires_approval : Bool
  approved_at : Option Nat
  expires_at : Option Nat
deriving DecidableEq, Repr

/-- Modelled from the spec: the follow-up rescheduling interval
(`next_follow_up_at = now + follow_up_interval`); the source stores only the
timer column, so the interval length is an arbitrary positive constant. -/
def follow_up_interval : Nat := 3

/-- Modelled from the spec: `create(product, target_price, quantity)` returns
a negotiation in `draft`; field defaults follow the ORM columns
(`email_sent_count=0`, `final_price` null, `requires_approval` true). -/
def create (original_price target_price : Rat) (quantity max_follow_ups : Nat)
    (auto_follow_up_enabled : Bool) (expires_at : Option Nat) : Negotiation :=
  { status := .draft
    original_price := original_price
    target_price := target_price
    current_offer_price := none
    final_price := none
    quantity := quantity
    email_thread_id := none
    email_sent_count := 0
    last_vendor_response_at := none
    auto_follow_up_enabled := auto_follow_up_enabled
    next_follow_up_at := none
    max_follow_ups := max_follow_ups
    requires_approval := true
    approved_at := none
    expires_at := expires_at }

/-- Modelled from the spec: `request_approval`, `draft → pending_approval`,
failing with `InvalidTransition` otherwise. -/
def request_approval (n : Negotiation) : Except NegotiationError Negotiation :=
  if n.status = .draft then
    .ok { n with status := .pending_approval }
  else
    .error (.invalidTransition n.status .request_approval)

/-- Modelled from the spec: `approve`, `pending_approval → sent`; dispatches
one outbound email, so `email_sent_count += 1`, records the thread id, and
schedules `next_follow_up_at = now + follow_up_interval` only when
`auto_follow_up_enabled`. -/
def approve (n : Negotiation) (now thread : Nat) : Except NegotiationError Negotiation :=
  if n.status = .pending_approval then
    .ok { n with
          status := .sent
          email_sent_count := n.email_sent_count + 1
          email_thread_id := some thread
          next_follow_up_at :=
            if n.auto_follow_up_enabled then some (now + follow_up_interval) else none }
  else
    .error (.invalidTransition n.status .approve)

/-- Modelled from the spec: `record_vendor_reply`, valid from `sent` or
`vendor_replied`; records the offer, stamps the reply time, and cancels any
pending follow-up. -/
def record_vendor_reply (n : Negotiation) (offer_price : Rat) (now : Nat) :
    Except NegotiationError Negotiation :=
  if n.status = .sent ∨ n.status = .vendor_replied then
    .ok { n with
          status := .vendor_replied
          current_offer_price := some offer_price
          last_vendor_response_at := some now
          next_follow_up_at := none }
  else
    .error (.invalidTransition n.status .record_vendor_reply)

/-- Modelled from the spec: `accept`, valid only from `vendor_replied`; sets
`status=accepted`, `final_price`, and `approved_at=now`. -/
def accept (n : Negotiation) (final_price : Rat) (now : Nat) :
    Except NegotiationError Negotiation :=
  if n.status = .vendor_replied then
    .ok { n with
          status := .accepted
          final_price := some final_price
          approved_at := some now }
  else
    .error (.invalidTransition n.status .accept)

/-- Modelled from the spec: `reject`, valid from `sent` or `vendor_replied`. -/
def reject (n : Negotiation) : Except NegotiationError Negotiation :=
  if n.status = .sent ∨ n.status = .vendor_replied then
    .ok { n with status := .rejected }
  else
    .error (.invalidTransition n.status .reject)

/-- Whether a negotiation status is non-terminal (spec §4.2: `accepted`,
`rejected`, `expired` are terminal). -/
def nonTerminal : NegotiationStatus → Bool
  | .accepted => false
  | .rejected => false
  | .expired => false
  | _ => true

/-- Whether an optional deadline is due: `now ≥ t` for a scheduled `t`. -/
def dueAt : Option Nat → Nat → Bool
  | some t, now => t ≤ now
  | none, _ => false

/-- Whether an optional expiry deadline has been passed: `now > e`. -/
def pastExpiry : Option Nat → Nat → Bool
  | some e, now => e < now
  | none, _ => false

/-- Modelled from the spec: `tick_follow_up(negotiation, now)`.  First the
expiry check: any non-terminal negotiation with `now > expires_at` becomes
`expired`.  Otherwise, when `status ∈ {sent, vendor_replied}` and
`now ≥ next_follow_up_at`: if `email_sent_count ≤ max_follow_ups` a
follow-up is sent (count incremented, timer rescheduled); if
`email_sent_count > max_follow_ups` the negotiation becomes `expired`
instead of sending.  Otherwise the tick is a no-op. -/
def tick_follow_up (n : Negotiation) (now : Nat) : Negotiation :=
  if nonTerminal n.status && pastExpiry n.expires_at now then
    { n with status := .expired }
  else if (n.status = .sent ∨ n.status = .vendor_replied) ∧ dueAt n.next_follow_up_at now then
    if n.email_sent_count ≤ n.max_follow_ups then
      { n with
        email_sent_count := n.email_sent_count + 1
        next_follow_up_at := some (now + follow_up_interval) }
    else
      { n with status := .expired }
  else
    n

/-- The negotiations reachable from `create` through the state-machine
operations (only successful outcomes change state). -/
inductive NReachable : Negotiation → Prop where
  | created (o t : Rat) (q mf : Nat) (auto : Bool) (exp : Option Nat) :
      NReachable (create o t q mf auto exp)
  | requested (n n' : Negotiation) :
      NReachable n → request_approval n = .ok n' → NReachable n'
  | approved (n : Negotiation) (now thread : Nat) (n' : Negotiation) :
      NReachable n → approve n now thread = .ok n' → NReachable n'
  | replied (n : Negotiation) (offer : Rat) (now : Nat) (n' : Negotiation) :
      NReachable n → record_vendor_reply n offer now = .ok n' → NReachable n'
  | accepted_ (n : Negotiation) (p : Rat) (now : Nat) (n' : Negotiation) :
      NReachable n → accept n p now = .ok n' → NReachable n'
  | rejected_ (n n' : Negotiation) :
      NReachable n → reject n = .ok n' → NReachable n'
  | ticked (n : Negotiation) (now : Nat) :
      NReachable n → NReachable (tick_follow_up n now)

/-- The C1 scenario negotiation: `max_follow_ups=2`, `auto_follow_up_enabled`,
approved at time 0, then ticked past each follow-up interval with no vendor
reply until expiry. -/
def scenarioC1 : Negotiation :=
  match (request_approval (create 100 80 1 2 true none)).bind (fun n => approve n 0 1) with
  | .ok n =>
      tick_follow_up
        (tick_follow_up (tick_follow_up n follow_up_interval) (2 * follow_up_interval))
        (3 * follow_up_interval)
  | .error _ => create 100 80 1 2 true none

/-- Status of AI agent search jobs, mirroring `JobStatus` in
src/src/models/enums.py. -/
inductive JobStatus where
  | pending
  | queued
  | running
  | completed
  | failed
  | cancelled
deriving DecidableEq, Repr

/-- The names of the job state-machine operations, used as the
`requested_transition` payload of `InvalidTransition`. -/
inductive JobOp where
  | enqueue
  | start
  | advance
deriving DecidableEq, Repr

/-- Errors raised by the job state machine and quota tracker (spec §7). -/
inductive JobError where
  | invalidTransition (current : JobStatus) (requested : JobOp)
  | quotaExceeded
deriving DecidableEq, Repr

/-- The `SearchJob` entity, mirroring the columns of src/src/models/agent.py
that the workflow touches.  `error_message` is an opaque message code
standing for the Text column. -/
structure SearchJob where
  status : JobStatus
  priority : Nat
  progress_percentage : Nat
  retry_count : Nat
  max_retries : Nat
  error_message : Option Nat
  estimated_cost_usd : Rat
  actual_cost_usd : Rat
  started_at : Option Nat
  completed_at : Option Nat
deriving DecidableEq, Repr

/-- The classified outcome of one agent capability invocation
(spec §6: success / retryable failure / fatal failure).  A successful step
reports the new progress value and its cost, and whether it was the final
step of the workflow. -/
inductive StepResult where
  | success (progress : Nat) (cost : Rat) (isFinal : Bool)
  | retryableFailure (code : Nat)
  | fatalFailure (code : Nat)
deriving DecidableEq, Repr

/-- A freshly created job in state `pending`, with the ORM column defaults
(`progress_percentage=0`, `retry_count=0`, `actual_cost_usd=0`). -/
def newJob (priority max_retries : Nat) (estimated : Rat) : SearchJob :=
  { status := .pending
    priority := priority
    progress_percentage := 0
    retry_count := 0
    max_retries := max_retries
    error_message := none
    estimated_cost_usd := estimated
    actual_cost_usd := 0
    started_at := none
    completed_at := none }

/-- The quota-relevant organization state: the limit and counter columns of
`OrganizationSettings` (src/src/models/organization.py) plus the logical
concurrency counter the spec keeps unpersisted (§4.3). -/
structure OrgState where
  max_searches_per_month : Nat
  max_concurrent_jobs : Nat
  monthly_budget_usd : Rat
  current_searches_this_month : Nat
  current_spend_this_month : Rat
  usage_reset_date : Nat
  current_concurrent_jobs : Nat
deriving DecidableEq, Repr

/-- Modelled from the spec: `submit(query, filters, priority)` creates a
`pending` job, failing with `QuotaExceeded` when
`current_searches_this_month ≥ max_searches_per_month` or the concurrency
counter has reached `max_concurrent_jobs`; on success both counters are
incremented atomically with creation. -/
def submit (st : OrgState) (priority max_retries : Nat) (estimated : Rat) :
    Except JobError (OrgState × SearchJob) :=
  if st.max_searches_per_month ≤ st.current_searches_this_month ∨
      st.max_concurrent_jobs ≤ st.current_concurrent_jobs then
    .error .quotaExceeded
  else
    .ok ({ st with
           current_searches_this_month := st.current_searches_this_month + 1
           current_concurrent_jobs := st.current_concurrent_jobs + 1 },
         newJob priority max_retries estimated)

/-- Modelled from the spec: the queueing edge `pending → queued`. -/
def enqueue (j : SearchJob) : Except JobError SearchJob :=
  if j.status = .pending then
    .ok { j with status := .queued }
  else
    .error (.invalidTransition j.status .enqueue)

/-- Modelled from the spec: the execution edge `queued → running`. -/
def start (j : SearchJob) (now : Nat) : Except JobError SearchJob :=
  if j.status = .queued then
    .ok { j with status := .running, started_at := some now }
  else
    .error (.invalidTransition j.status .start)

/-- Modelled from the spec: `advance(job, step)`, valid only while `running`.
A successful final step completes the job at `progress_percentage=100`; a
successful intermediate step raises progress monotonically (clamped to 100)
and accumulates cost.  A retryable failure increments `retry_count` and
re-enters `running`, except that reaching `max_retries` transitions to
`failed` with `error_message` set; a fatal failure fails the job at once. -/
def advance (j : SearchJob) (r : StepResult) (now : Nat) : Except JobError SearchJob :=
  if j.status = .running then
    match r with
    | .success p c final =>
        if final then
          .ok { j with
                status := .completed
                progress_percentage := 100
                completed_at := some now
                actual_cost_usd := j.actual_cost_usd + c }
        else
          .ok { j with
                progress_percentage := min 100 (max j.progress_percentage p)
                actual_cost_usd := j.actual_cost_usd + c }
    | .retryableFailure code =>
        if j.retry_count < j.max_retries then
          if j.retry_count + 1 = j.max_retries then
            .ok { j with
                  status := .failed
                  retry_count := j.retry_count + 1
                  error_message := some code
                  completed_at := some now }
          else
            .ok { j with retry_count := j.retry_count + 1 }
        else
          .ok { j with
                status := .failed
                error_message := some code
                completed_at := some now }
    | .fatalFailure code =>
        .ok { j with
              status := .failed
              error_message := some code
              completed_at := some now }
  else
    .error (.invalidTransition j.status .advance)

/-- Whether a job status is terminal (`completed`, `failed`, `cancelled`). -/
def isTerminal : JobStatus → Bool
  | .completed => true
  | .failed => true
  | .cancelled => true
  | _ => false

/-- Modelled from the spec: `cancel(job)`, a no-op on terminal jobs
(idempotent, not an error) and otherwise `status=cancelled`,
`completed_at=now`. -/
def cancel (j : SearchJob) (now : Nat) : SearchJob :=
  if isTerminal j.status then j
  else { j with status := .cancelled, completed_at := some now }

/-- The jobs reachable from `submit` through the job state machine. -/
inductive JReachable : SearchJob → Prop where
  | submitted (st : OrgState) (p mr : Nat) (est : Rat) (st' : OrgState) (j : SearchJob) :
      submit st p mr est = .ok (st', j) → JReachable j
  | enqueued (j j' : SearchJob) : JReachable j → enqueue j = .ok j' → JReachable j'
  | started (j : SearchJob) (now : Nat) (j' : SearchJob) :
      JReachable j → start j now = .ok j' → JReachable j'
  | advanced (j : SearchJob) (r : StepResult) (now : Nat) (j' : SearchJob) :
      JReachable j → advance j r now = .ok j' → JReachable j'
  | cancelled_ (j : SearchJob) (now : Nat) : JReachable j → JReachable (cancel j now)

/-- The C3 scenario: a job submitted with `max_retries=3` whose first three
`advance` calls all report `RetryableCapabilityFailure`. -/
def scenarioC3 : Except JobError SearchJob :=
  ((((submit ⟨100, 3, 100, 0, 0, 0, 0⟩ 1 3 0).bind (fun p => enqueue p.2)).bind
      (fun j => start j 0)).bind
        (fun j => advance j (.retryableFailure 11) 1)).bind
          (fun j => (advance j (.retryableFailure 12) 2).bind
            (fun j2 => advance j2 (.retryableFailure 13) 3))

/-- Folded sequential submission: `submitN st k` performs `k` successive
`submit` calls against the same organization with no job terminating in
between. -/
def submitN : OrgState → Nat → Except JobError OrgState
  | st, 0 => .ok st
  | st, k + 1 =>
      match submit st 1 3 0 with
      | .ok (st', _) => submitN st' k
      | .error e => .error e

/-- Modelled from the spec: the length of one month for the lazy quota
reset; the source stores only the `usage_reset_date` column, so the period
length is an arbitrary positive constant (days). -/
def monthLength : Nat := 30

/-- Modelled from the spec: the lazy monthly reset performed on first quota
access in a new period — when `now` has crossed `usage_reset_date`, both
monthly counters reset to zero and `usage_reset_date` advances by one
month; otherwise the state is untouched. -/
def checkReset (st : OrgState) (now : Nat) : OrgState :=
  if st.usage_reset_date ≤ now then
    { st with
      current_searches_this_month := 0
      current_spend_this_month := 0
      usage_reset_date := st.usage_reset_date + monthLength }
  else st

/-- The `WebhookEvent` entity, mirroring the columns of
src/src/models/notification.py used by deduplication; the string columns
(`source`, `event_type`, `external_id`) and the JSON payload are opaque
identifiers here. -/
structure WebhookEvent where
  source : Nat
  event_type : Nat
  external_id : Nat
  payload : Nat
  processed : Bool
  processed_at : Option Nat
  processing_attempts : Nat
deriving DecidableEq, Repr

/-- The two defined outcomes of webhook ingestion (spec §4.4). -/
inductive IngestResult where
  | accepted
  | duplicate
deriving DecidableEq, Repr

/-- Whether an event carries the given deduplication key. -/
def hasKey (source external_id : Nat) (e : WebhookEvent) : Bool :=
  e.source == source && e.external_id == external_id

/-- Modelled from the spec: `ingest(source, external_id, payload)`.  The
first occurrence of a key appends a `WebhookEvent` with `processed=false`
and returns `Accepted`; a repeat returns `Duplicate`, creates no record,
and increments `processing_attempts` on the existing one. -/
def ingest (events : List WebhookEvent) (source external_id event_type payload : Nat) :
    IngestResult × List WebhookEvent :=
  if events.any (hasKey source external_id) then
    (.duplicate,
     events.map (fun e =>
       if hasKey source external_id e then
         { e with processing_attempts := e.processing_attempts + 1 }
       else e))
  else
    (.accepted,
     { source := source
       event_type := event_type
       external_id := external_id
       payload := payload
       processed := false
       processed_at := none
       processing_attempts := 0 } :: events)

/-- The webhook stores reachable from the empty store by ingestion. -/
inductive WReachable : List WebhookEvent → Prop where
  | empty : WReachable []
  | ingested (events : List WebhookEvent) (s x t p : Nat) :
      WReachable events → WReachable (ingest events s x t p).2

/-- The `PurchaseOrder` entity, mirroring the columns of
src/src/models/negotiation.py that generation touches.  The `voided` flag
is modelled from the spec (§4.5 speaks of non-voided POs; the source table
has no such column). -/
structure PurchaseOrder where
  negotiation_id : Nat
  po_number : Nat
  quantity : Nat
  unit_price : Rat
  subtotal : Rat
  tax_amount : Rat
  shipping_cost : Rat
  total_amount : Rat
  is_sent_to_vendor : Bool
  voided : Bool
deriving DecidableEq, Repr

/-- The purchase-order table together with the sequential `po_number`
allocator. -/
structure POStore where
  orders : List PurchaseOrder
  next_po_number : Nat
deriving DecidableEq, Repr

/-- Errors raised by the purchase-order generator (spec §4.5 / §7). -/
inductive POError where
  | invalidStatus (current : NegotiationStatus)
  | alreadyGenerated
deriving DecidableEq, Repr

/-- Whether a purchase order is the active (non-voided) one of the given
negotiation. -/
def activeFor (nid : Nat) (po : PurchaseOrder) : Bool :=
  po.negotiation_id == nid && !po.voided

/-- Modelled from the spec: `generate(negotiation)`, valid only when the
negotiation is `accepted` (which fixes `final_price`); computes
`subtotal = final_price × quantity`, applies tax and shipping, allocates
the next sequential `po_number`, and produces an unsent, unapproved draft.
Fails with `AlreadyGenerated` when a non-voided PO for the negotiation
already exists. -/
def generate (st : POStore) (nid : Nat) (n : Negotiation) (tax shipping : Rat) :
    Except POError (POStore × PurchaseOrder) :=
  if n.status = .accepted then
    match n.final_price with
    | some fp =>
        if st.orders.any (activeFor nid) then
          .error .alreadyGenerated
        else
          let po : PurchaseOrder :=
            { negotiation_id := nid
              po_number := st.next_po_number
              quantity := n.quantity
              unit_price := fp
              subtotal := fp * (n.quantity : Rat)
              tax_amount := tax
              shipping_cost := shipping
              total_amount := fp * (n.quantity : Rat) + tax + shipping
              is_sent_to_vendor := false
              voided := false }
          .ok ({ orders := po :: st.orders, next_po_number := st.next_po_number + 1 }, po)
    | none => .error (.invalidStatus n.status)
  else .error (.invalidStatus n.status)

/-- Modelled from the spec: voiding a purchase order (the escape hatch
required before `generate` may be repeated). -/
def voidPO (st : POStore) (num : Nat) : POStore :=
  { st with
    orders := st.orders.map (fun po =>
      if po.po_number == num then { po with voided := true } else po) }

/-- The purchase-order stores reachable from the empty store by generation
and voiding. -/
inductive POReachable : POStore → Prop where
  | empty : POReachable ⟨[], 1⟩
  | generated (st : POStore) (nid : Nat) (n : Negotiation) (tax shipping : Rat)
      (st' : POStore) (po : PurchaseOrder) :
      POReachable st → generate st nid n tax shipping = .ok (st', po) → POReachable st'
  | voided (st : POStore) (num : Nat) : POReachable st → POReachable (voidPO st num)

/-- A user row as seen by the CRUD router; the schema module is not in the
source tree, so only the primary key matters and remaining columns are an
opaque field. -/
structure UserRec where
  id : Nat
  info : Nat
deriving DecidableEq, Repr

/-- The user table. -/
abbrev Db := List UserRec

/-- Modelled from the spec: `user_service.get_user` (the services module is
absent from the source tree) — the primary-key lookup the router depends
on. -/
def get_user (db : Db) (uid : Nat) : Option UserRec :=
  db.find? (fun u => u.id == uid)

/-- Modelled from the spec: `user_service.delete_user` as imported by the
router — removal of the user row.  The router imports it but its
`user_delete` handler never calls it. -/
def delete_user (db : Db) (uid : Nat) : Db :=
  db.filter (fun u => !(u.id == uid))

/-- An HTTP error response raised by a route handler. -/
inductive HTTPError where
  | httpException (status_code : Nat) (detail : String)
deriving DecidableEq, Repr

/-- The detail carried by the router's 404 response. -/
def user_not_found_detail : String := "User not found"

/-- The body returned by the DELETE handler. -/
def user_deleted_message : String := "User deleted"

/-- The DELETE /users/user_id handler of src/src/user/routes/user_router.py:
it looks the user up, raises 404 when absent, and otherwise returns the
message while leaving the database exactly as it was — the imported
`delete_user` service is never invoked. -/
def user_delete (db : Db) (uid : Nat) : Except HTTPError (String × Db) :=
  match get_user db uid with
  | none => .error (.httpException 404 user_not_found_detail)
  | some _ => .ok (user_deleted_message, db)

/-- A concrete negotiation in state `sent` used to instantiate theorems:
one initial email sent, `max_follow_ups=2`, a follow-up due at instant 3. -/
def sampleSent : Negotiation :=
  { status := .sent
    original_price := 100
    target_price := 80
    current_offer_price := none
    final_price := none
    quantity := 1
    email_thread_id := some 1
    email_sent_count := 1
    last_vendor_response_at := none
    auto_follow_up_enabled := true
    next_follow_up_at := some 3
    max_follow_ups := 2
    requires_approval := true
    approved_at := none
    expires_at := none }

/-- A concrete negotiation in state `vendor_replied` used to instantiate
theorems. -/
def sampleReplied : Negotiation :=
  { sampleSent with
    status := .vendor_replied
    current_offer_price := some 92
    last_vendor_response_at := some 4
    next_follow_up_at := none }

/-- A concrete running job used to instantiate theorems. -/
def sampleRunning : SearchJob :=
  { status := .running
    priority := 1
    progress_percentage := 40
    retry_count := 0
    max_retries := 3
    error_message := none
    estimated_cost_usd := 10
    actual_cost_usd := 2
    started_at := some 0
    completed_at := none }

/-- The job obtained from `sampleRunning` by one successful intermediate
step reporting progress 70 at cost 1. -/
def sampleAdvanced : SearchJob :=
  { sampleRunning with
    progress_percentage := 70
    actual_cost_usd := sampleRunning.actual_cost_usd + 1 }

/-- A concrete webhook event used to instantiate theorems. -/
def sampleEvent : WebhookEvent :=
  { source := 1
    event_type := 5
    external_id := 2
    payload := 9
    processed := false
    processed_at := none
    processing_attempts := 0 }

/-- A concrete accepted negotiation (final price 90 agreed at instant 5). -/
def sampleAccepted : Negotiation :=
  { sampleReplied with
    status := .accepted
    final_price := some 90
    approved_at := some 5 }

/-- The purchase order produced by generating against `sampleAccepted` on an
empty store. -/
def samplePO : PurchaseOrder :=
  match generate ⟨[], 1⟩ 7 sampleAccepted 0 0 with
  | .ok (_, po) => po
  | .error _ =>
      { negotiation_id := 0
        po_number := 0
        quantity := 0
        unit_price := 0
        subtotal := 0
        tax_amount := 0
        shipping_cost := 0
        total_amount := 0
        is_sent_to_vendor := false
        voided := false }

/-- The store produced by generating against `sampleAccepted` on an empty
store. -/
def samplePOStore : POStore :=
  match generate ⟨[], 1⟩ 7 sampleAccepted 0 0 with
  | .ok (st, _) => st
  | .error _ => ⟨[], 1⟩

/-- The inductive invariant of the negotiation state machine: the email
counter is bounded by `max_follow_ups + 1`, no email precedes approval, and
`final_price` stays null outside `accepted`. -/
theorem nreachable_invariant (n : Negotiation) (h : NReachable n) :
    n.email_sent_count ≤ n.max_follow_ups + 1 ∧
    ((n.status = .draft ∨ n.status = .pending_approval) → n.email_sent_count = 0) ∧
    (n.status ≠ .accepted → n.final_price = none) := by
  induction h with
  | created o t q mf auto exp => simp [create]
  | requested m n' hm heq ih =>
      simp only [request_approval] at heq
      split_ifs at heq with hd
      injection heq with heq
      subst heq
      exact ⟨ih.1, fun _ => ih.2.1 (Or.inl hd), fun _ => ih.2.2 (by simp [hd])⟩
  | approved m now thread n' hm heq ih =>
      simp only [approve] at heq
      have h0 : m.email_sent_count = 0 → m.email_sent_count + 1 ≤ m.max_follow_ups + 1 := by
        omega
      split_ifs at heq with hd hauto <;>
        (injection heq with heq; subst heq;
         exact ⟨h0 (ih.2.1 (Or.inr hd)), by simp, fun _ => ih.2.2 (by simp [hd])⟩)
  | replied m offer now n' hm heq ih =>
      simp only [record_vendor_reply] at heq
      split_ifs at heq with hd
      injection heq with heq
      subst heq
      refine ⟨ih.1, by simp, fun _ => ih.2.2 ?_⟩
      rcases hd with hd | hd <;> simp [hd]
  | accepted_ m p now n' hm heq ih =>
      simp only [accept] at heq
      split_ifs at heq with hd
      injection heq with heq
      subst heq
      exact ⟨ih.1, by simp, by simp⟩
  | rejected_ m n' hm heq ih =>
      simp only [reject] at heq
      split_ifs at heq with hd
      injection heq with heq
      subst heq
      refine ⟨ih.1, by simp, fun _ => ih.2.2 ?_⟩
      rcases hd with hd | hd <;> simp [hd]
  | ticked m now hm ih =>
      simp only [tick_follow_up]
      split_ifs with h1 h2 h3
      · have h1' := h1
        simp only [Bool.and_eq_true] at h1'
        refine ⟨ih.1, by simp, fun _ => ih.2.2 ?_⟩
        intro hacc
        have hnt := h1'.1
        rw [hacc] at hnt
        simp [nonTerminal] at hnt
      · refine ⟨?_, ?_, fun _ => ih.2.2 ?_⟩
        · show m.email_sent_count + 1 ≤ m.max_follow_ups + 1
          omega
        · intro hcon
          rcases h2.1 with hd | hd <;> rcases hcon with hc | hc <;> simp_all
        · rcases h2.1 with hd | hd <;> simp [hd]
      · refine ⟨ih.1, by simp, fun _ => ih.2.2 ?_⟩
        rcases h2.1 with hd | hd <;> simp [hd]
      · exact ih

/-- Claim C1: for every negotiation, `email_sent_count` never exceeds
`max_follow_ups + 1`; `tick_follow_up` sends a follow-up and increments
`email_sent_count` exactly when the status is `sent` or `vendor_replied`,
the follow-up is due, and `email_sent_count ≤ max_follow_ups`, and instead
transitions to `expired` when `email_sent_count > max_follow_ups`; and the
`max_follow_ups=2` scenario ends `expired` with `email_sent_count = 3`. -/
theorem claim_C1 :
    (∀ n : Negotiation, NReachable n → n.email_sent_count ≤ n.max_follow_ups + 1) ∧
    (∀ (n : Negotiation) (now t : Nat),
        (n.status = .sent ∨ n.status = .vendor_replied) →
        pastExpiry n.expires_at now = false →
        n.next_follow_up_at = some t → t ≤ now →
        (n.email_sent_count ≤ n.max_follow_ups →
            tick_follow_up n now =
              { n with
                email_sent_count := n.email_sent_count + 1
                next_follow_up_at := some (now + follow_up_interval) }) ∧
        (n.max_follow_ups < n.email_sent_count →
            tick_follow_up n now = { n with status := .expired })) ∧
    (∀ (n : Negotiation) (now : Nat),
        ¬((n.status = .sent ∨ n.status = .vendor_replied) ∧
            dueAt n.next_follow_up_at now = true) →
        (tick_follow_up n now).email_sent_count = n.email_sent_count) ∧
    (scenarioC1.status = .expired ∧ scenarioC1.email_sent_count = 3) := by
  refine ⟨fun n h => (nreachable_invariant n h).1, ?_, ?_, by decide⟩
  · intro n now t hs hexp hnext hdue
    have hA : ¬((nonTerminal n.status && pastExpiry n.expires_at now) = true) := by
      simp [hexp]
    have hcond : (n.status = .sent ∨ n.status = .vendor_replied) ∧
        dueAt n.next_follow_up_at now = true := by
      refine ⟨hs, ?_⟩
      rw [hnext]
      simpa [dueAt] using hdue
    constructor
    · intro hcount
      simp only [tick_follow_up]
      rw [if_neg hA, if_pos hcond, if_pos hcount]
    · intro hcount
      simp only [tick_follow_up]
      rw [if_neg hA, if_pos hcond, if_neg (show ¬n.email_sent_count ≤ n.max_follow_ups by omega)]
  · intro n now hnot
    simp only [tick_follow_up]
    split_ifs with h1 <;> rfl

/-- Witness for C1: the follow-up bound at a freshly created negotiation and
a concrete due follow-up tick on `sampleSent`. -/
theorem claim_C1_witness :
    (create 100 80 1 2 true none).email_sent_count ≤
      (create 100 80 1 2 true none).max_follow_ups + 1 ∧
    tick_follow_up sampleSent 5 =
      { sampleSent with
        email_sent_count := 2
        next_follow_up_at := some (5 + follow_up_interval) } :=
  ⟨claim_C1.1 _ (NReachable.created 100 80 1 2 true none),
   (claim_C1.2.1 sampleSent 5 3 (Or.inl rfl) rfl rfl (by decide)).1 (by decide)⟩

/-- Claim C5: every state-machine operation invoked in a state that is not a
legal source of that edge fails with `InvalidTransition` carrying the
current state and the requested transition, returning no changed entity; in
particular `draft → accepted` directly is rejected.  (`cancel` on a
terminal job and an undue `tick_follow_up` are specified no-ops, not
invalid edges.) -/
theorem claim_C5 :
    (∀ n : Negotiation, n.status ≠ .draft →
        request_approval n = .error (.invalidTransition n.status .request_approval)) ∧
    (∀ (n : Negotiation) (now thread : Nat), n.status ≠ .pending_approval →
        approve n now thread = .error (.invalidTransition n.status .approve)) ∧
    (∀ (n : Negotiation) (offer : Rat) (now : Nat),
        ¬(n.status = .sent ∨ n.status = .vendor_replied) →
        record_vendor_reply n offer now =
          .error (.invalidTransition n.status .record_vendor_reply)) ∧
    (∀ (n : Negotiation) (p : Rat) (now : Nat), n.status ≠ .vendor_replied →
        accept n p now = .error (.invalidTransition n.status .accept)) ∧
    (∀ n : Negotiation, ¬(n.status = .sent ∨ n.status = .vendor_replied) →
        reject n = .error (.invalidTransition n.status .reject)) ∧
    (∀ j : SearchJob, j.status ≠ .pending →
        enqueue j = .error (.invalidTransition j.status .enqueue)) ∧
    (∀ (j : SearchJob) (now : Nat), j.status ≠ .queued →
        start j now = .error (.invalidTransition j.status .start)) ∧
    (∀ (j : SearchJob) (r : StepResult) (now : Nat), j.status ≠ .running →
        advance j r now = .error (.invalidTransition j.status .advance)) ∧
    (∀ (p : Rat) (now : Nat),
        accept (create 100 80 1 3 true none) p now =
          .error (.invalidTransition .draft .accept)) := by
  refine ⟨?_, ?_, ?_, ?_, ?_, ?_, ?_, ?_, ?_⟩
  · intro n h; simp [request_approval, h]
  · intro n now thread h; simp [approve, h]
  · intro n offer now h; simp [record_vendor_reply, h]
  · intro n p now h; simp [accept, h]
  · intro n h; simp [reject, h]
  · intro j h; simp [enqueue, h]
  · intro j now h; simp [start, h]
  · intro j r now h; simp [advance, h]
  · intro p now; simp [accept, create]

/-- Witness for C5: an invalid `request_approval` on a sent negotiation and
the direct `draft → accepted` rejection. -/
theorem claim_C5_witness :
    request_approval sampleSent = .error (.invalidTransition .sent .request_approval) ∧
    accept (create 100 80 1 3 true none) 90 5 = .error (.invalidTransition .draft .accept) :=
  ⟨claim_C5.1 sampleSent (by decide), claim_C5.2.2.2.2.2.2.2.2 90 5⟩

/-- Claim C8: `final_price` is null in every reachable state other than
`accepted`; `accept` is valid only from `vendor_replied` and sets
`status`, `final_price`, and `approved_at`; and once a negotiation is
`accepted` every operation either fails or leaves it untouched, so
`final_price` never changes afterwards. -/
theorem claim_C8 :
    (∀ n : Negotiation, NReachable n → n.status ≠ .accepted → n.final_price = none) ∧
    (∀ (n : Negotiation) (p : Rat) (now : Nat),
        (n.status = .vendor_replied →
            accept n p now =
              .ok { n with
                    status := .accepted
                    final_price := some p
                    approved_at := some now }) ∧
        (n.status ≠ .vendor_replied →
            accept n p now = .error (.invalidTransition n.status .accept))) ∧
    (∀ n : Negotiation, n.status = .accepted →
        request_approval n = .error (.invalidTransition n.status .request_approval) ∧
        (∀ now thread : Nat,
            approve n now thread = .error (.invalidTransition n.status .approve)) ∧
        (∀ (offer : Rat) (now : Nat),
            record_vendor_reply n offer now =
              .error (.invalidTransition n.status .record_vendor_reply)) ∧
        (∀ (p : Rat) (now : Nat),
            accept n p now = .error (.invalidTransition n.status .accept)) ∧
        reject n = .error (.invalidTransition n.status .reject) ∧
        (∀ now : Nat, tick_follow_up n now = n)) := by
  refine ⟨fun n h => (nreachable_invariant n h).2.2, ?_, ?_⟩
  · intro n p now
    constructor
    · intro h; simp [accept, h]
    · intro h; simp [accept, h]
  · intro n h
    refine ⟨by simp [request_approval, h], fun now thread => by simp [approve, h],
      fun offer now => by simp [record_vendor_reply, h],
      fun p now => by simp [accept, h], by simp [reject, h], fun now => ?_⟩
    simp [tick_follow_up, h, nonTerminal]

/-- Witness for C8: a concrete acceptance from `vendor_replied` and the null
`final_price` of a freshly created negotiation. -/
theorem claim_C8_witness :
    accept sampleReplied 90 5 =
      .ok { sampleReplied with
            status := .accepted
            final_price := some 90
            approved_at := some 5 } ∧
    (create 100 80 1 3 true none).final_price = none :=
  ⟨(claim_C8.2.1 sampleReplied 90 5).1 rfl,
   claim_C8.1 _ (NReachable.created 100 80 1 3 true none) (by decide)⟩

/-- The inductive invariant of the job state machine: `retry_count` stays
within `max_retries`, a positive retry limit that has been reached forces
`failed`, a failed job carries an error message, and progress is bounded by
100. -/
theorem jreachable_invariant (j : SearchJob) (h : JReachable j) :
    j.retry_count ≤ j.max_retries ∧
    (j.retry_count = j.max_retries → 0 < j.max_retries → j.status = .failed) ∧
    (j.status = .failed → ∃ code, j.error_message = some code) ∧
    j.progress_percentage ≤ 100 := by
  induction h with
  | submitted st p mr est st' j heq =>
      simp only [submit] at heq
      split_ifs at heq with hq
      injection heq with heq
      injection heq with heq1 heq2
      subst heq2
      refine ⟨Nat.zero_le _, ?_, by simp [newJob], by simp [newJob]⟩
      intro h1 h2
      exact absurd h1.symm (by simpa [newJob] using Nat.pos_iff_ne_zero.mp (by simpa [newJob] using h2))
  | enqueued m j' hm heq ih =>
      simp only [enqueue] at heq
      split_ifs at heq with hp
      injection heq with heq
      subst heq
      refine ⟨ih.1, ?_, by simp, ih.2.2.2⟩
      intro h1 h2
      exact absurd (ih.2.1 h1 h2) (by simp [hp])
  | started m now j' hm heq ih =>
      simp only [start] at heq
      split_ifs at heq with hp
      injection heq with heq
      subst heq
      refine ⟨ih.1, ?_, by simp, ih.2.2.2⟩
      intro h1 h2
      exact absurd (ih.2.1 h1 h2) (by simp [hp])
  | advanced m r now j' hm heq ih =>
      cases r with
      | success p c final =>
          simp only [advance] at heq
          split_ifs at heq with hrun hfinal
          · injection heq with heq
            subst heq
            refine ⟨ih.1, ?_, by simp, by simp⟩
            intro h1 h2
            exact absurd (ih.2.1 h1 h2) (by simp [hrun])
          · injection heq with heq
            subst heq
            refine ⟨ih.1, ?_, ?_, ?_⟩
            · intro h1 h2
              exact absurd (ih.2.1 h1 h2) (by simp [hrun])
            · intro hf
              exact absurd hf (by simp [hrun])
            · show min 100 (max m.progress_percentage p) ≤ 100
              exact min_le_left _ _
      | retryableFailure code =>
          simp only [advance] at heq
          split_ifs at heq with hrun hlt hreach
          · injection heq with heq
            subst heq
            exact ⟨by show m.retry_count + 1 ≤ m.max_retries; omega,
              fun _ _ => rfl, fun _ => ⟨code, rfl⟩, ih.2.2.2⟩
          · injection heq with heq
            subst heq
            refine ⟨by show m.retry_count + 1 ≤ m.max_retries; omega, ?_, ?_, ih.2.2.2⟩
            · intro h1 _
              exact absurd h1 hreach
            · intro hf
              exact absurd hf (by simp [hrun])
          · injection heq with heq
            subst heq
            exact ⟨ih.1, fun _ _ => rfl, fun _ => ⟨code, rfl⟩, ih.2.2.2⟩
      | fatalFailure code =>
          simp only [advance] at heq
          split_ifs at heq with hrun
          injection heq with heq
          subst heq
          exact ⟨ih.1, fun _ _ => rfl, fun _ => ⟨code, rfl⟩, ih.2.2.2⟩
  | cancelled_ m now hm ih =>
      simp only [cancel]
      split_ifs with hterm
      · exact ih
      · refine ⟨ih.1, ?_, by simp, ih.2.2.2⟩
        intro h1 h2
        have hf := ih.2.1 h1 h2
        exact absurd (by simp [hf, isTerminal] : isTerminal m.status = true) hterm

/-- Claim C3: `retry_count` never exceeds `max_retries`; once it reaches a
positive `max_retries` the job is `failed` with `error_message` set; and
the `max_retries=3` scenario of three retryable failures ends failed with
`retry_count=3`. -/
theorem claim_C3 :
    (∀ j : SearchJob, JReachable j → j.retry_count ≤ j.max_retries) ∧
    (∀ j : SearchJob, JReachable j → 0 < j.max_retries →
        j.retry_count = j.max_retries →
        j.status = .failed ∧ ∃ code, j.error_message = some code) ∧
    scenarioC3.map (fun j => (j.status, j.retry_count)) = .ok (.failed, 3) := by
  refine ⟨fun j h => (jreachable_invariant j h).1, ?_, rfl⟩
  intro j h hpos heq
  have hi := jreachable_invariant j h
  exact ⟨hi.2.1 heq hpos, hi.2.2.1 (hi.2.1 heq hpos)⟩

/-- Witness for C3: the retry bound at a freshly submitted job. -/
theorem claim_C3_witness :
    (newJob 1 3 0).retry_count ≤ (newJob 1 3 0).max_retries :=
  claim_C3.1 _ (JReachable.submitted ⟨100, 3, 100, 0, 0, 0, 0⟩ 1 3 0 _ _ rfl)

/-- Claim C7: `progress_percentage` is a natural number bounded by 100 on
every reachable job, every operation preserves or increases it, and a
successful final step completes the job at progress 100. -/
theorem claim_C7 :
    (∀ j : SearchJob, JReachable j → j.progress_percentage ≤ 100) ∧
    (∀ (j : SearchJob) (r : StepResult) (now : Nat) (j' : SearchJob),
        j.progress_percentage ≤ 100 → advance j r now = .ok j' →
        j.progress_percentage ≤ j'.progress_percentage ∧ j'.progress_percentage ≤ 100) ∧
    (∀ j j' : SearchJob, enqueue j = .ok j' →
        j'.progress_percentage = j.progress_percentage) ∧
    (∀ (j : SearchJob) (now : Nat) (j' : SearchJob), start j now = .ok j' →
        j'.progress_percentage = j.progress_percentage) ∧
    (∀ (j : SearchJob) (now : Nat),
        (cancel j now).progress_percentage = j.progress_percentage) ∧
    (∀ (j : SearchJob) (p : Nat) (c : Rat) (now : Nat) (j' : SearchJob),
        advance j (.success p c true) now = .ok j' →
        j'.status = .completed ∧ j'.progress_percentage = 100) := by
  refine ⟨fun j h => (jreachable_invariant j h).2.2.2, ?_, ?_, ?_, ?_, ?_⟩
  · intro j r now j' hb heq
    cases r with
    | success p c final =>
        simp only [advance] at heq
        split_ifs at heq with hrun hfinal
        · injection heq with heq
          subst heq
          exact ⟨hb, le_refl _⟩
        · injection heq with heq
          subst heq
          constructor
          · show j.progress_percentage ≤ min 100 (max j.progress_percentage p)
            omega
          · show min 100 (max j.progress_percentage p) ≤ 100
            omega
    | retryableFailure code =>
        simp only [advance] at heq
        split_ifs at heq with hrun hlt hreach <;> (injection heq with heq; subst heq) <;>
          exact ⟨le_refl _, hb⟩
    | fatalFailure code =>
        simp only [advance] at heq
        split_ifs at heq with hrun
        injection heq with heq
        subst heq
        exact ⟨le_refl _, hb⟩
  · intro j j' heq
    simp only [enqueue] at heq
    split_ifs at heq with hp
    injection heq with heq
    subst heq
    rfl
  · intro j now j' heq
    simp only [start] at heq
    split_ifs at heq with hp
    injection heq with heq
    subst heq
    rfl
  · intro j now
    simp only [cancel]
    split_ifs <;> rfl
  · intro j p c now j' heq
    simp only [advance] at heq
    split_ifs at heq with hrun
    injection heq with heq
    subst heq
    exact ⟨rfl, rfl⟩

/-- Witness for C7: a concrete successful intermediate step on
`sampleRunning` raising progress from 40 to 70. -/
theorem claim_C7_witness :
    sampleRunning.progress_percentage ≤ sampleAdvanced.progress_percentage ∧
    sampleAdvanced.progress_percentage ≤ 100 :=
  claim_C7.2.1 sampleRunning (.success 70 1 false) 7 sampleAdvanced (by decide) rfl

/-- The per-event update applied on a duplicate ingest may change
`processing_attempts` but never the deduplication key. -/
theorem bump_preserves_key (s x : Nat) (e : WebhookEvent) :
    (if hasKey s x e then { e with processing_attempts := e.processing_attempts + 1 }
      else e).source = e.source ∧
    (if hasKey s x e then { e with processing_attempts := e.processing_attempts + 1 }
      else e).external_id = e.external_id := by
  split_ifs <;> exact ⟨rfl, rfl⟩

/-- The inductive invariant of the webhook store: the deduplication key
(`source`, `external_id`) is unique across all recorded events. -/
theorem wreachable_pairwise (events : List WebhookEvent) (h : WReachable events) :
    events.Pairwise (fun a b => ¬(a.source = b.source ∧ a.external_id = b.external_id)) := by
  induction h with
  | empty => simp
  | ingested evs s x t p hw ih =>
      simp only [ingest]
      split_ifs with hany
      · refine List.Pairwise.map _ ?_ ih
        intro a b hab hcon
        obtain ⟨ha1, ha2⟩ := bump_preserves_key s x a
        obtain ⟨hb1, hb2⟩ := bump_preserves_key s x b
        refine hab ⟨?_, ?_⟩
        · rw [← ha1, ← hb1]
          exact hcon.1
        · rw [← ha2, ← hb2]
          exact hcon.2
      · refine List.Pairwise.cons ?_ ih
        intro b hb hcon
        have hk : hasKey s x b = true := by
          simp only [hasKey, Bool.and_eq_true, beq_iff_eq]
          exact ⟨hcon.1.symm, hcon.2.symm⟩
        exact hany (List.any_eq_true.mpr ⟨b, hb, hk⟩)

/-- Claim C2: the first `ingest` of a key creates exactly one `WebhookEvent`
with `processed=false` and returns `Accepted`; a repeat of the key returns
`Duplicate`, creates no second record, and increments `processing_attempts`
on the existing one; and the key stays unique across all reachable
stores. -/
theorem claim_C2 :
    (∀ (events : List WebhookEvent) (s x t p : Nat),
        events.any (hasKey s x) = false →
        (ingest events s x t p).1 = .accepted ∧
        (ingest events s x t p).2 =
          { source := s
            event_type := t
            external_id := x
            payload := p
            processed := false
            processed_at := none
            processing_attempts := 0 } :: events) ∧
    (∀ (events : List WebhookEvent) (s x t p : Nat) (e : WebhookEvent),
        e ∈ events → hasKey s x e = true →
        (ingest events s x t p).1 = .duplicate ∧
        (ingest events s x t p).2.length = events.length ∧
        { e with processing_attempts := e.processing_attempts + 1 } ∈
          (ingest events s x t p).2) ∧
    (∀ events : List WebhookEvent, WReachable events →
        events.Pairwise (fun a b =>
          ¬(a.source = b.source ∧ a.external_id = b.external_id))) := by
  refine ⟨?_, ?_, fun events h => wreachable_pairwise events h⟩
  · intro events s x t p hnone
    constructor <;> simp [ingest, hnone]
  · intro events s x t p e he hk
    have hany : events.any (hasKey s x) = true := List.any_eq_true.mpr ⟨e, he, hk⟩
    refine ⟨by simp [ingest, hany], by simp [ingest, hany], ?_⟩
    simp only [ingest, hany, if_true]
    exact List.mem_map.mpr ⟨e, he, by simp [hk]⟩

/-- Witness for C2: a first ingest on the empty store and a duplicate ingest
of `sampleEvent`'s key. -/
theorem claim_C2_witness :
    (ingest [] 1 2 3 4).1 = .accepted ∧
    (ingest [sampleEvent] 1 2 7 8).1 = .duplicate ∧
    { sampleEvent with processing_attempts := sampleEvent.processing_attempts + 1 } ∈
      (ingest [sampleEvent] 1 2 7 8).2 :=
  ⟨(claim_C2.1 [] 1 2 3 4 rfl).1,
   (claim_C2.2.1 [sampleEvent] 1 2 7 8 sampleEvent (by simp) rfl).1,
   (claim_C2.2.1 [sampleEvent] 1 2 7 8 sampleEvent (by simp) rfl).2.2⟩

/-- Inversion of a successful `generate`: the negotiation was `accepted`, no
active PO for it existed, and the produced order and store have the
documented draft shape. -/
theorem generate_ok_inv (st : POStore) (nid : Nat) (n : Negotiation) (tax shipping : Rat)
    (st' : POStore) (po : PurchaseOrder) (fp : Rat) (hfp : n.final_price = some fp)
    (heq : generate st nid n tax shipping = .ok (st', po)) :
    n.status = .accepted ∧ st.orders.any (activeFor nid) = false ∧
    po = { negotiation_id := nid
           po_number := st.next_po_number
           quantity := n.quantity
           unit_price := fp
           subtotal := fp * (n.quantity : Rat)
           tax_amount := tax
           shipping_cost := shipping
           total_amount := fp * (n.quantity : Rat) + tax + shipping
           is_sent_to_vendor := false
           voided := false } ∧
    st' = { orders := po :: st.orders, next_po_number := st.next_po_number + 1 } := by
  simp only [generate, hfp] at heq
  split_ifs at heq with hacc hdup
  injection heq with heq
  injection heq with heq1 heq2
  subst heq2
  subst heq1
  exact ⟨hacc, by simpa using hdup, rfl, rfl⟩

/-- The inductive invariant of the purchase-order store: every negotiation
has at most one active (non-voided) purchase order. -/
theorem poreachable_at_most_one (st : POStore) (h : POReachable st) (nid : Nat) :
    st.orders.countP (activeFor nid) ≤ 1 := by
  induction h with
  | empty => simp
  | generated st0 nid0 n tax shipping st' po hst heq ih =>
      cases hfp : n.final_price with
      | none =>
          rw [generate] at heq
          rw [hfp] at heq
          split_ifs at heq
      | some fp =>
          obtain ⟨hacc, hdup, hpo, hst'⟩ :=
            generate_ok_inv st0 nid0 n tax shipping st' po fp hfp heq
          subst hpo
          subst hst'
          show List.countP (activeFor nid) (_ :: st0.orders) ≤ 1
          rw [List.countP_cons]
          by_cases hnid : nid0 = nid
          · subst hnid
          -- a fresh active PO for nid0, but the guard says none existed before
            have hzero : st0.orders.countP (activeFor nid0) = 0 := by
              rw [List.countP_eq_zero]
              intro a ha hpa
              rw [List.any_eq_false] at hdup
              exact hdup a ha hpa
            simp [hzero, activeFor]
          · have hfalse : activeFor nid
                ({ negotiation_id := nid0
                   po_number := st0.next_po_number
                   quantity := n.quantity
                   unit_price := fp
                   subtotal := fp * (n.quantity : Rat)
                   tax_amount := tax
                   shipping_cost := shipping
                   total_amount := fp * (n.quantity : Rat) + tax + shipping
                   is_sent_to_vendor := false
                   voided := false } : PurchaseOrder) = false := by
              simp [activeFor, hnid]
            simp only [hfalse]
            simpa using ih
  | voided st0 num hst ih =>
      simp only [voidPO]
      rw [List.countP_map]
      refine le_trans (List.countP_mono_left ?_) ih
      intro a ha hpa
      simp only [Function.comp] at hpa
      by_cases hb : (a.po_number == num) = true
      · rw [if_pos hb] at hpa
        simp [activeFor] at hpa
      · rw [if_neg hb] at hpa
        exact hpa

/-- Claim C6: `generate` succeeds only on an `accepted` negotiation,
producing an unsent, non-voided draft with `subtotal = final_price ×
quantity` and the next sequential `po_number`; a second generation for the
same negotiation without voiding fails with `AlreadyGenerated`; and every
reachable store holds at most one active PO per negotiation. -/
theorem claim_C6 :
    (∀ (st : POStore) (nid : Nat) (n : Negotiation) (tax shipping : Rat),
        n.status ≠ .accepted →
        generate st nid n tax shipping = .error (.invalidStatus n.status)) ∧
    (∀ (st : POStore) (nid : Nat) (n : Negotiation) (tax shipping : Rat)
        (st' : POStore) (po : PurchaseOrder) (fp : Rat),
        n.final_price = some fp →
        generate st nid n tax shipping = .ok (st', po) →
        po.subtotal = fp * (n.quantity : Rat) ∧ po.is_sent_to_vendor = false ∧
        po.voided = false ∧ po.po_number = st.next_po_number ∧
        st'.next_po_number = st.next_po_number + 1 ∧ st'.orders = po :: st.orders) ∧
    (∀ (st : POStore) (nid : Nat) (n : Negotiation) (tax shipping : Rat)
        (st' : POStore) (po : PurchaseOrder) (fp : Rat)
        (n2 : Negotiation) (tax2 shipping2 fp2 : Rat),
        n.final_price = some fp → n2.status = .accepted → n2.final_price = some fp2 →
        generate st nid n tax shipping = .ok (st', po) →
        generate st' nid n2 tax2 shipping2 = .error .alreadyGenerated) ∧
    (∀ st : POStore, POReachable st → ∀ nid : Nat,
        st.orders.countP (activeFor nid) ≤ 1) := by
  refine ⟨?_, ?_, ?_, fun st h nid => poreachable_at_most_one st h nid⟩
  · intro st nid n tax shipping h
    simp [generate, h]
  · intro st nid n tax shipping st' po fp hfp heq
    obtain ⟨hacc, hdup, hpo, hst'⟩ := generate_ok_inv st nid n tax shipping st' po fp hfp heq
    subst hpo
    subst hst'
    exact ⟨rfl, rfl, rfl, rfl, rfl, rfl⟩
  · intro st nid n tax shipping st' po fp n2 tax2 shipping2 fp2 hfp hacc2 hfp2 heq
    obtain ⟨hacc, hdup, hpo, hst'⟩ := generate_ok_inv st nid n tax shipping st' po fp hfp heq
    have hactive : activeFor nid po = true := by
      subst hpo
      simp [activeFor]
    have hany : st'.orders.any (activeFor nid) = true := by
      rw [hst']
      simp [hactive]
    simp [generate, hfp2, hacc2, hany]

/-- Witness for C6: generating against a draft negotiation is rejected, and
regenerating for negotiation 7 against the store already holding its active
PO yields `AlreadyGenerated`. -/
theorem claim_C6_witness :
    generate ⟨[], 1⟩ 7 (create 100 80 1 3 true none) 0 0 =
      .error (.invalidStatus .draft) ∧
    generate samplePOStore 7 sampleAccepted 0 0 = .error .alreadyGenerated :=
  ⟨claim_C6.1 ⟨[], 1⟩ 7 (create 100 80 1 3 true none) 0 0 (by decide),
   claim_C6.2.2.1 ⟨[], 1⟩ 7 sampleAccepted 0 0 samplePOStore samplePO 90
     sampleAccepted 0 0 90 rfl rfl rfl rfl⟩

/-- Iterated submission under sufficient quota headroom: `k` submissions all
succeed and advance both counters by `k`. -/
theorem submitN_ok (k : Nat) : ∀ st : OrgState,
    st.current_searches_this_month + k ≤ st.max_searches_per_month →
    st.current_concurrent_jobs + k ≤ st.max_concurrent_jobs →
    submitN st k =
      .ok { st with
            current_searches_this_month := st.current_searches_this_month + k
            current_concurrent_jobs := st.current_concurrent_jobs + k } := by
  induction k with
  | zero =>
      intro st h1 h2
      rfl
  | succ k ih =>
      intro st h1 h2
      have hs : submit st 1 3 0 =
          .ok ({ st with
                 current_searches_this_month := st.current_searches_this_month + 1
                 current_concurrent_jobs := st.current_concurrent_jobs + 1 },
               newJob 1 3 0) := by
        simp only [submit]
        rw [if_neg (by omega)]
      simp only [submitN, hs]
      rw [ih _ (by show st.current_searches_this_month + 1 + k ≤ st.max_searches_per_month; omega)
        (by show st.current_concurrent_jobs + 1 + k ≤ st.max_concurrent_jobs; omega)]
      simp only [Except.ok.injEq, OrgState.mk.injEq]
      refine ⟨trivial, trivial, trivial, by omega, trivial, trivial, by omega⟩

/-- One more submission than the concurrency headroom allows ends in
`QuotaExceeded`. -/
theorem submitN_exceeds (k : Nat) : ∀ st : OrgState,
    st.current_searches_this_month + k ≤ st.max_searches_per_month →
    st.current_concurrent_jobs + k = st.max_concurrent_jobs →
    submitN st (k + 1) = .error .quotaExceeded := by
  induction k with
  | zero =>
      intro st h1 h2
      have hs : submit st 1 3 0 = .error .quotaExceeded := by
        simp only [submit]
        rw [if_pos (Or.inr (by omega))]
      simp only [submitN, hs]
  | succ k ih =>
      intro st h1 h2
      have hs : submit st 1 3 0 =
          .ok ({ st with
                 current_searches_this_month := st.current_searches_this_month + 1
                 current_concurrent_jobs := st.current_concurrent_jobs + 1 },
               newJob 1 3 0) := by
        simp only [submit]
        rw [if_neg (by omega)]
      simp only [submitN, hs]
      exact ih _ (by show st.current_searches_this_month + 1 + k ≤ st.max_searches_per_month; omega)
        (by show st.current_concurrent_jobs + 1 + k = st.max_concurrent_jobs; omega)

/-- Claim C4: `submit` returns a `pending` job and bumps both counters when
quotas permit; it fails with `QuotaExceeded` whenever the monthly search
count or the concurrency count has reached its limit; successful
submissions never push a counter past its limit; and with
`max_concurrent_jobs = N`, no terminations, and enough monthly headroom,
`N` submissions succeed (reaching concurrency `N`) while the `(N+1)`-th
fails with `QuotaExceeded`. -/
theorem claim_C4 :
    (∀ (st : OrgState) (p mr : Nat) (est : Rat),
        st.current_searches_this_month < st.max_searches_per_month →
        st.current_concurrent_jobs < st.max_concurrent_jobs →
        submit st p mr est =
          .ok ({ st with
                 current_searches_this_month := st.current_searches_this_month + 1
                 current_concurrent_jobs := st.current_concurrent_jobs + 1 },
               newJob p mr est) ∧
        (newJob p mr est).status = .pending) ∧
    (∀ (st : OrgState) (p mr : Nat) (est : Rat),
        st.max_searches_per_month ≤ st.current_searches_this_month ∨
        st.max_concurrent_jobs ≤ st.current_concurrent_jobs →
        submit st p mr est = .error .quotaExceeded) ∧
    (∀ (st : OrgState) (p mr : Nat) (est : Rat) (st' : OrgState) (j : SearchJob),
        submit st p mr est = .ok (st', j) →
        st'.current_searches_this_month ≤ st.max_searches_per_month ∧
        st'.current_concurrent_jobs ≤ st.max_concurrent_jobs ∧
        st'.max_searches_per_month = st.max_searches_per_month ∧
        st'.max_concurrent_jobs = st.max_concurrent_jobs) ∧
    (∀ (st : OrgState) (N : Nat),
        st.current_concurrent_jobs = 0 →
        st.max_concurrent_jobs = N →
        st.current_searches_this_month + N + 1 ≤ st.max_searches_per_month →
        submitN st N =
          .ok { st with
                current_searches_this_month := st.current_searches_this_month + N
                current_concurrent_jobs := N } ∧
        submitN st (N + 1) = .error .quotaExceeded) := by
  refine ⟨?_, ?_, ?_, ?_⟩
  · intro st p mr est h1 h2
    constructor
    · simp only [submit]
      rw [if_neg (by omega)]
    · rfl
  · intro st p mr est h
    simp only [submit]
    rw [if_pos h]
  · intro st p mr est st' j heq
    simp only [submit] at heq
    split_ifs at heq with hq
    injection heq with heq
    injection heq with heq1 heq2
    subst heq1
    refine ⟨?_, ?_, rfl, rfl⟩
    · show st.current_searches_this_month + 1 ≤ st.max_searches_per_month
      omega
    · show st.current_concurrent_jobs + 1 ≤ st.max_concurrent_jobs
      omega
  · intro st N hc0 hmax hroom
    constructor
    · rw [submitN_ok N st (by omega) (by omega)]
      simp only [Except.ok.injEq, OrgState.mk.injEq]
      exact ⟨trivial, trivial, trivial, trivial, trivial, trivial, by omega⟩
    · exact submitN_exceeds N st (by omega) (by omega)

/-- Witness for C4: an organization with `max_concurrent_jobs = 2` accepts
two submissions and rejects the third. -/
theorem claim_C4_witness :
    submitN ⟨10, 2, 0, 0, 0, 0, 0⟩ 2 = .ok ⟨10, 2, 0, 2, 0, 0, 2⟩ ∧
    submitN ⟨10, 2, 0, 0, 0, 0, 0⟩ 3 = .error .quotaExceeded :=
  claim_C4.2.2.2 ⟨10, 2, 0, 0, 0, 0, 0⟩ 2 rfl rfl (by decide)

/-- Claim C9: the lazy monthly reset zeroes both usage counters and
advances `usage_reset_date` by one month exactly when `now` has crossed
it, is a no-op before the date, never moves `usage_reset_date` backward,
and two accesses within the same period perform at most one reset. -/
theorem claim_C9 :
    (∀ (st : OrgState) (now : Nat), st.usage_reset_date ≤ now →
        checkReset st now =
          { st with
            current_searches_this_month := 0
            current_spend_this_month := 0
            usage_reset_date := st.usage_reset_date + monthLength }) ∧
    (∀ (st : OrgState) (now : Nat), now < st.usage_reset_date →
        checkReset st now = st) ∧
    (∀ (st : OrgState) (now : Nat),
        st.usage_reset_date ≤ (checkReset st now).usage_reset_date) ∧
    (∀ (st : OrgState) (n1 n2 : Nat), n1 ≤ n2 →
        n2 < st.usage_reset_date + monthLength →
        (checkReset (checkReset st n1) n2).usage_reset_date = st.usage_reset_date ∨
        ((checkReset (checkReset st n1) n2).usage_reset_date =
            st.usage_reset_date + monthLength ∧
          (checkReset (checkReset st n1) n2).current_searches_this_month = 0 ∧
          (checkReset (checkReset st n1) n2).current_spend_this_month = 0)) := by
  refine ⟨?_, ?_, ?_, ?_⟩
  · intro st now h
    simp [checkReset, h]
  · intro st now h
    simp only [checkReset]
    rw [if_neg (by omega)]
  · intro st now
    simp only [checkReset]
    split_ifs with h
    · show st.usage_reset_date ≤ st.usage_reset_date + monthLength
      omega
    · exact le_refl _
  · intro st n1 n2 h12 hlt
    by_cases h1 : st.usage_reset_date ≤ n1
    · have e1 : checkReset st n1 =
          { st with
            current_searches_this_month := 0
            current_spend_this_month := 0
            usage_reset_date := st.usage_reset_date + monthLength } := by
        simp [checkReset, h1]
      rw [e1]
      have e2 : checkReset
          ({ st with
             current_searches_this_month := 0
             current_spend_this_month := 0
             usage_reset_date := st.usage_reset_date + monthLength } : OrgState) n2 =
          { st with
            current_searches_this_month := 0
            current_spend_this_month := 0
            usage_reset_date := st.usage_reset_date + monthLength } := by
        simp only [checkReset]
        rw [if_neg (by show ¬st.usage_reset_date + monthLength ≤ n2; omega)]
      rw [e2]
      exact Or.inr ⟨rfl, rfl, rfl⟩
    · have e1 : checkReset st n1 = st := by
        simp only [checkReset]
        rw [if_neg h1]
      rw [e1]
      by_cases h2 : st.usage_reset_date ≤ n2
      · refine Or.inr ⟨?_, ?_, ?_⟩ <;> simp [checkReset, h2]
      · left
        simp only [checkReset]
        rw [if_neg h2]

/-- Witness for C9: a concrete reset at instant 9 on a state with reset date
7, and the at-most-one-reset property for accesses at instants 8 and 9. -/
theorem claim_C9_witness :
    checkReset ⟨10, 3, 0, 5, 0, 7, 0⟩ 9 = ⟨10, 3, 0, 0, 0, 37, 0⟩ ∧
    ((checkReset (checkReset ⟨10, 3, 0, 5, 0, 7, 0⟩ 8) 9).usage_reset_date = 7 ∨
      ((checkReset (checkReset ⟨10, 3, 0, 5, 0, 7, 0⟩ 8) 9).usage_reset_date = 37 ∧
        (checkReset (checkReset ⟨10, 3, 0, 5, 0, 7, 0⟩ 8) 9).current_searches_this_month = 0 ∧
        (checkReset (checkReset ⟨10, 3, 0, 5, 0, 7, 0⟩ 8) 9).current_spend_this_month = 0)) :=
  ⟨claim_C9.1 ⟨10, 3, 0, 5, 0, 7, 0⟩ 9 (by decide),
   claim_C9.2.2.2 ⟨10, 3, 0, 5, 0, 7, 0⟩ 8 9 (by decide) (by decide)⟩

/-- Claim C10: for a user id present in the database the DELETE handler
returns the message with the database unchanged (`delete_user` is never
invoked), and for an absent id it fails with a 404. -/
theorem claim_C10 :
    (∀ (db : Db) (uid : Nat) (u : UserRec), get_user db uid = some u →
        user_delete db uid = .ok (user_deleted_message, db)) ∧
    (∀ (db : Db) (uid : Nat), get_user db uid = none →
        user_delete db uid = .error (.httpException 404 user_not_found_detail)) := by
  constructor
  · intro db uid u h
    simp [user_delete, h]
  · intro db uid h
    simp [user_delete, h]

/-- Witness for C10: deleting a present user returns the message and leaves
the one-row database intact; deleting from the empty database is a 404. -/
theorem claim_C10_witness :
    user_delete [⟨1, 0⟩] 1 = .ok (user_deleted_message, [⟨1, 0⟩]) ∧
    user_delete [] 1 = .error (.httpException 404 user_not_found_detail) :=
  ⟨claim_C10.1 [⟨1, 0⟩] 1 ⟨1, 0⟩ rfl, claim_C10.2 [] 1 rfl⟩

end Procurement
